import Mathlib

/-!
Verification of the history / regression-detection / publish logic of
`src/write.ts` (github-action-benchmark). The TypeScript functions are
shallowly embedded as pure Lean functions; external collaborators
(filesystem, git, the comment API) are modelled by explicit outcome
parameters, and the publish coordinator records a trace of the external
actions it performs.
-/

/-- Modelled from the spec: a single Measurement (`BenchmarkResult` of the
extract module, which is not part of this source tree): `name` is the lookup
key, `value` numeric, `unit` a display string, `range` optional display
text. Numeric values are modelled as rationals. -/
structure BenchmarkResult where
  name : String
  value : Rat
  unit : String
  range : Option String
  deriving DecidableEq

/-- Modelled from the spec: the closed tool enumeration (`ToolType` of the
config module, which is not part of this source tree). -/
inductive ToolType
  | cargo
  | go
  | benchmarkjs
  | pytest
  deriving DecidableEq

/-- Modelled from the spec: commit metadata of an Entry; only the unique
`id` is semantically relevant, further fields are passed through opaquely. -/
structure Commit where
  id : String
  deriving DecidableEq

/-- Modelled from the spec: one benchmark run (an Entry, `Benchmark` of the
extract module): source commit, producing tool, ordered measurements. -/
structure Benchmark where
  commit : Commit
  tool : ToolType
  benches : List BenchmarkResult
  deriving DecidableEq

/-- The persisted history document (`DataJson` in write.ts). The JS object
`entries` keyed by suite name is modelled as an association list with
first-match lookup; JS object key order corresponds to list order. -/
structure DataJson where
  lastUpdate : Nat
  repoUrl : String
  entries : List (String × List Benchmark)
  deriving DecidableEq

/-- The fixed literal prepended to the JSON document in the stored file
(`SCRIPT_PREFIX` in write.ts). -/
def SCRIPT_PREFIX_TEXT : String := "window.BENCHMARK_DATA = "

/-- The empty default history returned by `loadDataJson` on any read or
parse failure. -/
def emptyDataJson : DataJson :=
  { lastUpdate := 0, repoUrl := "", entries := [] }

/-- `loadDataJson` of write.ts. Reading the file yields `none` when the
read fails (missing/unreadable file); the JSON codec is the platform's
`JSON.parse`, modelled as an explicit argument returning `none` on a parse
failure. The whole body is wrapped in try/catch returning the empty
default, so both failure sources collapse to `emptyDataJson`. -/
def loadDataJson (parse : String → Option DataJson) (file : Option String) : DataJson :=
  match file with
  | none => emptyDataJson
  | some script =>
    match parse (script.drop SCRIPT_PREFIX_TEXT.length) with
    | some d => d
    | none => emptyDataJson

/-- `storeDataJson` of write.ts: the file content written, namely the fixed
script header followed by the serialized document (`JSON.stringify`
modelled as an explicit argument). -/
def storeDataJson (stringify : DataJson → String) (data : DataJson) : String :=
  SCRIPT_PREFIX_TEXT ++ stringify data

/-- `biggerIsBetter` of write.ts: regression polarity per tool. -/
def biggerIsBetter (tool : ToolType) : Bool :=
  match tool with
  | ToolType.cargo => false
  | ToolType.go => false
  | ToolType.benchmarkjs => true
  | ToolType.pytest => true

/-- An `Alert` of write.ts: the offending current measurement, the matched
previous measurement, and their ratio (field named `ratioQ` here). -/
structure Alert where
  current : BenchmarkResult
  prev : BenchmarkResult
  ratioQ : Rat
  deriving DecidableEq

/-- `findAlerts` of write.ts: scan `curEntry.benches` in order, look up the
first same-named previous measurement, skip when absent, compute the
polarity-directed ratio, and collect an alert when it exceeds the
threshold. The imperative `alerts.push` loop is a left fold. -/
def findAlerts (curEntry prevEntry : Benchmark) (threshold : Rat) : List Alert :=
  curEntry.benches.foldl
    (fun alerts current =>
      match prevEntry.benches.find? (fun b => b.name == current.name) with
      | none => alerts
      | some prev =>
        let rq := if biggerIsBetter curEntry.tool then prev.value / current.value
          else current.value / prev.value
        if rq > threshold then alerts ++ [⟨current, prev, rq⟩] else alerts)
    []

/-- RegressionDetector contract written from the spec words (§4.2): for
each current measurement in order, find the first same-named baseline
measurement, skip if absent, emit an alert exactly when the
polarity-directed ratio exceeds the threshold. -/
def detectSpec (current baseline : Benchmark) (threshold : Rat) : List Alert :=
  current.benches.filterMap
    (fun c =>
      match baseline.benches.find? (fun b => b.name == c.name) with
      | none => none
      | some p =>
        let rq := if biggerIsBetter current.tool then p.value / c.value
          else c.value / p.value
        if rq > threshold then some ⟨c, p, rq⟩ else none)

/-- First-match lookup in the entries association list (JS `entries[name]`). -/
def lookupEntries (es : List (String × List Benchmark)) (nm : String) :
    Option (List Benchmark) :=
  match es.find? (fun p => p.fst == nm) with
  | none => none
  | some p => some p.snd

/-- Write-through of `entries[name] = v` on the association list: replace
the value at the first occurrence of the key, or append the key (JS adds
new object keys at the end). -/
def setEntries : List (String × List Benchmark) → String → List Benchmark →
    List (String × List Benchmark)
  | [], nm, v => [(nm, v)]
  | p :: rest, nm, v =>
    if p.fst == nm then (nm, v) :: rest else p :: setEntries rest nm v

/-- The in-memory merge step of `writeBenchmark` (write.ts lines 285-304):
set `lastUpdate`/`repoUrl`, and either create `entries[name] = [bench]`
(no previous benchmark), or scan the existing sequence in reverse for the
last entry with a different commit id (the baseline for alerts) and append
the new entry. Returns the updated document and the baseline, `none` when
no prior entry has a differing commit id. -/
def mergeBenchmark (data : DataJson) (nm : String) (bench : Benchmark)
    (now : Nat) (htmlUrl : String) : DataJson × Option Benchmark :=
  match lookupEntries data.entries nm with
  | none =>
    ({ lastUpdate := now, repoUrl := htmlUrl,
       entries := setEntries data.entries nm [bench] }, none)
  | some es =>
    let prevBench := es.reverse.find? (fun e => e.commit.id != bench.commit.id)
    ({ lastUpdate := now, repoUrl := htmlUrl,
       entries := setEntries data.entries nm (es ++ [bench]) }, prevBench)

/-- Iterated merge: publish a list of entries into the same suite one at a
time (each publish performs exactly one merge). -/
def mergeMany (data : DataJson) (nm : String) (bs : List Benchmark)
    (now : Nat) (htmlUrl : String) : DataJson :=
  bs.foldl (fun d b => (mergeBenchmark d nm b now htmlUrl).fst) data

/-- Does the character list start with the given needle? (helper for the
substring test of JS `String.prototype.includes`). -/
def beginsWith : List Char → List Char → Bool
  | [], _ => true
  | _ :: _, [] => false
  | n :: ns, h :: hs => n == h && beginsWith ns hs

/-- Does the haystack contain the needle as a contiguous subsequence? -/
def containsSeq (needle : List Char) : List Char → Bool
  | [] => beginsWith needle []
  | h :: hs => beginsWith needle (h :: hs) || containsSeq needle hs

/-- The remote-rejected test of write.ts line 64:
`err.message.includes('[remote rejected]')`. -/
def hasRemoteRejected (msg : String) : Bool :=
  containsSeq "[remote rejected]".toList msg.toList

/-- Git actions performed by `pushGitHubPages`. -/
inductive GitPushAct
  | push
  | pullRebase
  deriving DecidableEq, BEq

/-- `pushGitHubPages` of write.ts (lines 59-77), over the outcomes of the
first push, the rebase pull, and the retried push. Thrown JS errors are
modelled by their message string (the `instanceof Error` guard collapses).
Returns the performed git actions in order, and the overall outcome. -/
def pushGitHubPages (first pullR second : Except String Unit) :
    List GitPushAct × Except String Unit :=
  match first with
  | Except.ok _ => ([GitPushAct.push], Except.ok ())
  | Except.error msg =>
    if hasRemoteRejected msg then
      match pullR with
      | Except.error e => ([GitPushAct.push, GitPushAct.pullRebase], Except.error e)
      | Except.ok _ =>
        match second with
        | Except.ok _ =>
          ([GitPushAct.push, GitPushAct.pullRebase, GitPushAct.push], Except.ok ())
        | Except.error e =>
          ([GitPushAct.push, GitPushAct.pullRebase, GitPushAct.push], Except.error e)
    else ([GitPushAct.push], Except.error msg)

/-- Repository metadata drawn from the workflow payload (`getCurrentRepo`). -/
structure RepoInfo where
  htmlUrl : String
  owner : String
  name : String
  deriving DecidableEq

/-- Error thrown by `alert` when comment-on-alert is set without a token. -/
def tokenMissingMsg : String :=
  "\x27comment-on-alert\x27 is set but github-token is not set"

/-- Error thrown by `getCurrentRepo` when payload repository info is absent
(the JSON payload dump appended in the source is elided). -/
def repoMissingMsg : String :=
  "Repository information is not available in payload"

/-- `strOfValue` inside `buildAlertComment`. -/
def strOfValue (b : BenchmarkResult) : String :=
  let s := "`" ++ toString b.value ++ "` " ++ b.unit
  match b.range with
  | some r => s ++ " (`" ++ r ++ "`)"
  | none => s

/-- `buildAlertComment` of write.ts: title (informational when the
threshold is zero), description, one table row per alert, footer with the
action link, optional CC line. -/
def buildAlertComment (alerts : List Alert) (benchName : String)
    (curEntry prevEntry : Benchmark) (threshold : Rat) (cc : List String)
    (repo : RepoInfo) (workflow : String) : String :=
  let benchmarkText :=
    if benchName == "Benchmark" then "" else " **\x27" ++ benchName ++ "\x27**"
  let title :=
    if threshold == 0 then "# Performance Report"
    else "# :warning: **Performance Alert** :warning:"
  let header :=
    [title, "",
     "Possible performance regression was detected for benchmark" ++ benchmarkText ++ ".",
     "Benchmark result of this commit is worse than the previous benchmark result exceeding threshold `"
       ++ toString threshold ++ "`.",
     "",
     "| Benchmark suite | Current: " ++ curEntry.commit.id ++ " | Previous: "
       ++ prevEntry.commit.id ++ " | Ratio |",
     "|-|-|-|-|"]
  let rows := alerts.map
    (fun a =>
      "| `" ++ a.current.name ++ "` | " ++ strOfValue a.current ++ " | "
        ++ strOfValue a.prev ++ " | `" ++ toString a.ratioQ ++ "` |")
  let actionUrl := repo.htmlUrl ++ "/actions?query=workflow%3A" ++ workflow
  let footer :=
    ["",
     "This comment was automatically generated by [workflow](" ++ actionUrl
       ++ ") using [github-action-benchmark](https://github.com/rhysd/github-action-benchmark)."]
  let ccLines := if cc.isEmpty then [] else ["", "CC: " ++ String.intercalate " " cc]
  String.intercalate "\n" (header ++ rows ++ footer ++ ccLines)

/-- `alert` of write.ts (lines 209-248). External outcomes: `repo` is the
payload repository info (`none` makes `getCurrentRepo` throw inside
`buildAlertComment`), `commentRes` the outcome of the comment API call,
`commentUrl` the url it returns. Result: the comment body actually posted
(if any) and the overall outcome (`error` models a thrown exception). -/
def runAlert (benchName : String) (curEntry prevEntry : Benchmark)
    (threshold : Rat) (token : Option String)
    (shouldComment shouldFail : Bool) (ccUsers : List String)
    (repo : Option RepoInfo) (workflow : String)
    (commentRes : Except String Unit) (commentUrl : String) :
    Option String × Except String Unit :=
  if !shouldComment && !shouldFail then (none, Except.ok ())
  else
    let alerts := findAlerts curEntry prevEntry threshold
    if alerts.isEmpty then (none, Except.ok ())
    else
      match repo with
      | none => (none, Except.error repoMissingMsg)
      | some r =>
        let body := buildAlertComment alerts benchName curEntry prevEntry threshold ccUsers r workflow
        if shouldComment then
          match token with
          | none => (none, Except.error tokenMissingMsg)
          | some _ =>
            match commentRes with
            | Except.error e => (none, Except.error e)
            | Except.ok _ =>
              let message := body ++ "\nComment was generated at " ++ commentUrl
              if shouldFail then (some body, Except.error message)
              else (some body, Except.ok ())
        else
          if shouldFail then (none, Except.error body)
          else (none, Except.ok ())

/-- Modelled from the spec: the configuration record destructured at the
top of `writeBenchmark` (the config module is not part of this source
tree); fields exactly as consumed by write.ts. -/
structure Config where
  name : String
  tool : ToolType
  ghPagesBranch : String
  benchmarkDataDirPath : String
  githubToken : Option String
  autoPush : Bool
  skipFetchGhPages : Bool
  commentOnAlert : Bool
  alertThreshold : Rat
  failOnAlert : Bool
  alertCommentCcUsers : List String

/-- Externally visible actions of one `writeBenchmark` run, in order. -/
inductive Act
  | gitSwitch
  | gitPull
  | mkdir
  | loadData
  | storeData
  | gitAddData
  | writeIndexHtml
  | gitAddIndex
  | gitCommit
  | gitPush
  | gitPullRebase
  | postComment
  | checkoutBack
  deriving DecidableEq, BEq

/-- Outcomes of the external collaborators during one `writeBenchmark`
run: file content at the data path (`none` = read fails), the JSON codec,
clock and payload context, and one outcome per fallible external call. -/
structure Env where
  fileContent : Option String
  parse : String → Option DataJson
  now : Nat
  htmlUrl : String
  isPrivateRepo : Bool
  repo : Option RepoInfo
  workflow : String
  indexHtmlExists : Bool
  commentUrl : String
  switchRes : Except String Unit
  pullRes : Except String Unit
  mkdirRes : Except String Unit
  writeRes : Except String Unit
  addDataRes : Except String Unit
  writeIndexRes : Except String Unit
  addIndexRes : Except String Unit
  commitRes : Except String Unit
  pushRes1 : Except String Unit
  pullRebaseRes : Except String Unit
  pushRes2 : Except String Unit
  commentRes : Except String Unit
  checkoutRes : Except String Unit

/-- Result of one `writeBenchmark` run: trace of external actions, comment
body posted (if any), and overall outcome. -/
structure RunOut where
  trace : List Act
  commented : Option String
  result : Except String Unit

/-- Sequencing helper: perform one fallible external action; on error the
run stops with the trace so far (a thrown exception), otherwise continue. -/
def step (t : List Act) (a : Act) (r : Except String Unit)
    (k : List Act → RunOut) : RunOut :=
  match r with
  | Except.error e => ⟨t ++ [a], none, Except.error e⟩
  | Except.ok _ => k (t ++ [a])

/-- The pull guard of write.ts line 274:
`!skipFetchGhPages && (!isPrivateRepo || githubToken)`. -/
def pullCondition (cfg : Config) (isPrivate : Bool) : Bool :=
  !cfg.skipFetchGhPages && (!isPrivate || cfg.githubToken.isSome)

/-- `addIndexHtmlIfNeeded` of write.ts: skip when index.html exists,
otherwise write the default page and `git add` it. -/
def indexStep (env : Env) (t : List Act) (k : List Act → RunOut) : RunOut :=
  if env.indexHtmlExists then k t
  else
    step t Act.writeIndexHtml env.writeIndexRes (fun t1 =>
    step t1 Act.gitAddIndex env.addIndexRes k)

/-- Conversion of `pushGitHubPages` actions into run-level actions. -/
def pushActToAct (g : GitPushAct) : Act :=
  match g with
  | GitPushAct.push => Act.gitPush
  | GitPushAct.pullRebase => Act.gitPullRebase

/-- The auto-push phase of `writeBenchmark` (lines 314-321): only when both
a token and auto-push are configured. -/
def pushStep (env : Env) (cfg : Config) (t : List Act)
    (k : List Act → RunOut) : RunOut :=
  match cfg.githubToken with
  | some _ =>
    if cfg.autoPush then
      let p := pushGitHubPages env.pushRes1 env.pullRebaseRes env.pushRes2
      match p.snd with
      | Except.error e => ⟨t ++ p.fst.map pushActToAct, none, Except.error e⟩
      | Except.ok _ => k (t ++ p.fst.map pushActToAct)
    else k t
  | none => k t

/-- The alert phase of `writeBenchmark` (lines 325-338): skipped when no
baseline was captured, otherwise run `alert`. -/
def alertStep (env : Env) (cfg : Config) (bench : Benchmark)
    (prevBench : Option Benchmark) (t : List Act) : RunOut :=
  match prevBench with
  | none => ⟨t, none, Except.ok ()⟩
  | some prev =>
    let a := runAlert cfg.name bench prev cfg.alertThreshold cfg.githubToken
      cfg.commentOnAlert cfg.failOnAlert cfg.alertCommentCcUsers
      env.repo env.workflow env.commentRes env.commentUrl
    match a.fst with
    | some body => ⟨t ++ [Act.postComment], some body, a.snd⟩
    | none => ⟨t, none, a.snd⟩

/-- The try-block of `writeBenchmark` (lines 274-338): conditional pull,
mkdir, load, pure merge, store, stage, default index page, commit,
conditional auto-push, alert phase. -/
def writeBody (env : Env) (cfg : Config) (bench : Benchmark) : RunOut :=
  let merged := mergeBenchmark (loadDataJson env.parse env.fileContent)
    cfg.name bench env.now env.htmlUrl
  let pullFirst : (List Act → RunOut) → RunOut := fun k =>
    if pullCondition cfg env.isPrivateRepo then step [] Act.gitPull env.pullRes k
    else k []
  pullFirst (fun ta =>
  step ta Act.mkdir env.mkdirRes (fun tb =>
  step tb Act.loadData (Except.ok ()) (fun tc =>
  step tc Act.storeData env.writeRes (fun td =>
  step td Act.gitAddData env.addDataRes (fun te =>
  indexStep env te (fun tf =>
  step tf Act.gitCommit env.commitRes (fun tg =>
  pushStep env cfg tg (fun th =>
  alertStep env cfg bench merged.snd th))))))))

/-- `writeBenchmark` of write.ts (lines 250-343): the initial branch switch
sits outside the try block; the final `git checkout -` is the finally
clause, so it runs on success and on failure of the body, and its own
failure replaces the body's outcome (JS finally semantics). -/
def writeBenchmark (env : Env) (cfg : Config) (bench : Benchmark) : RunOut :=
  match env.switchRes with
  | Except.error e => ⟨[Act.gitSwitch], none, Except.error e⟩
  | Except.ok _ =>
    let b := writeBody env cfg bench
    ⟨(Act.gitSwitch :: b.trace) ++ [Act.checkoutBack], b.commented,
      match env.checkoutRes with
      | Except.error e => Except.error e
      | Except.ok _ => b.result⟩

/-- All external calls of a run succeed (used to isolate the alert-phase
behaviour from unrelated failures). -/
def Env.allOk (env : Env) : Prop :=
  env.switchRes = Except.ok () ∧ env.pullRes = Except.ok () ∧
  env.mkdirRes = Except.ok () ∧ env.writeRes = Except.ok () ∧
  env.addDataRes = Except.ok () ∧ env.writeIndexRes = Except.ok () ∧
  env.addIndexRes = Except.ok () ∧ env.commitRes = Except.ok () ∧
  env.commentRes = Except.ok () ∧ env.checkoutRes = Except.ok ()

/-- Is the outcome an error (a thrown exception)? -/
def isErrES (r : Except String Unit) : Bool :=
  match r with
  | Except.error _ => true
  | Except.ok _ => false

/-! Concrete objects used by witnesses and counterexamples. -/

/-- Entry with the given commit id and no measurements. -/
def benchOf (s : String) : Benchmark := ⟨⟨s⟩, ToolType.cargo, []⟩

/-- History whose suite "s" holds entries with commit ids [A, A, B, C]. -/
def dataABC : DataJson :=
  ⟨0, "", [("s", [benchOf "A", benchOf "A", benchOf "B", benchOf "C"])]⟩

/-- Twenty-three filler characters. -/
def junk23 : String := "xxxxxxxxxxxxxxxxxxxxxxx"

/-- Twenty-four filler characters. -/
def junk24 : String := "xxxxxxxxxxxxxxxxxxxxxxxx"

/-- A history document distinct from the empty default. -/
def dOne : DataJson := ⟨1, "", []⟩

/-- Toy JSON codec accepting exactly the document "J". -/
def parseJ : String → Option DataJson :=
  fun s => if s = "J" then some dOne else none

/-- Toy serializer paired with `parseZ`. -/
def stringifyZ : DataJson → String := fun _ => "0"

/-- Toy JSON codec accepting exactly the document "0". -/
def parseZ : String → Option DataJson :=
  fun s => if s = "0" then some emptyDataJson else none

/-- A measurement of value 1. -/
def mOne : BenchmarkResult := ⟨"m", 1, "ns", none⟩

/-- A measurement of value 3 with the same name. -/
def mThree : BenchmarkResult := ⟨"m", 3, "ns", none⟩

/-- Current entry for the alert examples. -/
def curC7 : Benchmark := ⟨⟨"cur"⟩, ToolType.cargo, [mOne]⟩

/-- Baseline entry for the alert examples (same value, so the ratio is 1). -/
def prevC7 : Benchmark := ⟨⟨"prv"⟩, ToolType.cargo, [mOne]⟩

/-- Concrete payload repository info. -/
def repoX : RepoInfo := ⟨"u", "o", "r"⟩

/-- Stored baseline entry at commit A. -/
def benchPrevA : Benchmark := ⟨⟨"A"⟩, ToolType.cargo, [mOne]⟩

/-- Newly published entry at commit B whose measurement regressed (3 vs 1). -/
def benchNewB : Benchmark := ⟨⟨"B"⟩, ToolType.cargo, [mThree]⟩

/-- History whose suite "s" already holds the commit-A entry. -/
def dataA : DataJson := ⟨0, "", [("s", [benchPrevA])]⟩

/-- Environment where every external call succeeds and the stored file
parses to `dataA`. -/
def envOk : Env :=
  { fileContent := some "f", parse := fun _ => some dataA, now := 7,
    htmlUrl := "u", isPrivateRepo := false, repo := some repoX,
    workflow := "w", indexHtmlExists := true, commentUrl := "cu",
    switchRes := Except.ok (), pullRes := Except.ok (),
    mkdirRes := Except.ok (), writeRes := Except.ok (),
    addDataRes := Except.ok (), writeIndexRes := Except.ok (),
    addIndexRes := Except.ok (), commitRes := Except.ok (),
    pushRes1 := Except.ok (), pullRebaseRes := Except.ok (),
    pushRes2 := Except.ok (), commentRes := Except.ok (),
    checkoutRes := Except.ok () }

/-- Configuration with comment-on-alert set but no token, threshold 1,
fail-on-alert off, auto-push off. -/
def cfgC10 : Config :=
  ⟨"s", ToolType.cargo, "gh-pages", "benchmark-data", none, false, false,
   true, 1, false, []⟩

/-! Helper lemmas. -/

/-- Dropping the length of an appended head yields the tail. -/
theorem drop_length_append (a b : String) : (a ++ b).drop a.length = b := by
  rw [String.drop_eq]
  apply String.ext
  simp

/-- Dropping a string's own length yields the empty string. -/
theorem drop_length_self (s : String) : s.drop s.length = "" := by
  rw [String.drop_eq]
  apply String.ext
  simp

/-- C3: for every path, load returns the empty default history whenever
reading fails (no file content) or the content after the stripped header
fails to parse; no read or parse error propagates (the function is total
and lands in `emptyDataJson` in all such cases). -/
theorem load_fails_closed (parse : String → Option DataJson)
    (file : Option String)
    (h : ∀ s, file = some s → parse (s.drop SCRIPT_PREFIX_TEXT.length) = none) :
    loadDataJson parse file = emptyDataJson := by
  cases file with
  | none => rfl
  | some s =>
    simp only [loadDataJson]
    rw [h s rfl]

/-- Witness for C3 at a missing file and at an unparsable file. -/
theorem load_fails_closed_witness :
    loadDataJson parseJ none = emptyDataJson
    ∧ loadDataJson parseJ (some "corrupted") = emptyDataJson :=
  ⟨load_fails_closed parseJ none (fun _ hs => by cases hs),
   load_fails_closed parseJ (some "corrupted")
     (fun s hs => Option.some.inj hs ▸ (by decide))⟩

/-- C4: storing a history document and loading it back yields the original
document, for any JSON codec that round-trips on it: the header prepended
by store is exactly what load strips before parsing. -/
theorem store_then_load_roundtrip (parse : String → Option DataJson)
    (stringify : DataJson → String) (d : DataJson)
    (h : parse (stringify d) = some d) :
    loadDataJson parse (some (storeDataJson stringify d)) = d := by
  simp only [loadDataJson, storeDataJson, drop_length_append, h]

/-- Witness for C4 with a concrete codec and document. -/
theorem store_then_load_roundtrip_witness :
    parseZ (stringifyZ emptyDataJson) = some emptyDataJson
    ∧ loadDataJson parseZ (some (storeDataJson stringifyZ emptyDataJson))
      = emptyDataJson :=
  ⟨by decide, store_then_load_roundtrip parseZ stringifyZ emptyDataJson (by decide)⟩

/-- C9 counterexample: the header is 24 characters long, not 23. For the
23-character head `junk23` and a codec accepting "J", the file
`junk23 ++ "J"` parses after dropping 23 characters, yet load returns the
empty default (it drops 24), refuting the claim as stated. -/
theorem load_claimed23_cex :
    junk23.length = 23
    ∧ parseJ ((junk23 ++ "J").drop 23) = some dOne
    ∧ loadDataJson parseJ (some (junk23 ++ "J")) = emptyDataJson
    ∧ dOne ≠ emptyDataJson := by
  refine ⟨by decide, by decide, ?_, by decide⟩
  decide

/-- C9 (amended): load never verifies the header bytes: it unconditionally
drops exactly `SCRIPT_PREFIX_TEXT.length` (= 24, the length of
the string "window.BENCHMARK_DATA = ") characters, so for every file made
of an arbitrary head of that length followed by content that parses, load
returns that parse result regardless of the head's bytes. -/
theorem load_ignores_header_bytes (parse : String → Option DataJson)
    (pre s : String) (d : DataJson)
    (hl : pre.length = SCRIPT_PREFIX_TEXT.length)
    (hp : parse s = some d) :
    loadDataJson parse (some (pre ++ s)) = d := by
  simp only [loadDataJson]
  rw [← hl, drop_length_append, hp]

/-- Witness for the amended C9: an all-x 24-character head loads fine. -/
theorem load_ignores_header_bytes_witness :
    junk24.length = SCRIPT_PREFIX_TEXT.length
    ∧ loadDataJson parseJ (some (junk24 ++ "J")) = dOne :=
  ⟨by decide,
   load_ignores_header_bytes parseJ junk24 "J" dOne (by decide) (by decide)⟩

/-- C5: a first push failing with a message containing the remote-rejected
marker leads to exactly one rebase pull; when that pull succeeds, the
actions are exactly push, pull-with-rebase, retried push, and the outcome
is the retried push's outcome (a second failure propagates). A failure
without the marker performs zero retries and propagates immediately. -/
theorem pushGitHubPages_retry_policy (pullR second : Except String Unit)
    (msg : String) :
    (hasRemoteRejected msg = true →
      (pushGitHubPages (Except.error msg) pullR second).fst.count
          GitPushAct.pullRebase = 1
      ∧ (pullR = Except.ok () →
          pushGitHubPages (Except.error msg) pullR second
            = ([GitPushAct.push, GitPushAct.pullRebase, GitPushAct.push], second)))
    ∧ (hasRemoteRejected msg = false →
      pushGitHubPages (Except.error msg) pullR second
        = ([GitPushAct.push], Except.error msg)) := by
  constructor
  · intro hm
    constructor
    · simp only [pushGitHubPages, hm, if_true]
      cases pullR with
      | error e => rfl
      | ok u => cases second <;> rfl
    · intro hp
      subst hp
      simp only [pushGitHubPages, hm, if_true]
      cases second <;> rfl
  · intro hm
    simp only [pushGitHubPages, hm]
    rfl

/-- Witness for C5: a marker-bearing failure with a successful pull and
retried push performs push, rebase pull, push, and succeeds. -/
theorem pushGitHubPages_retry_policy_witness :
    pushGitHubPages (Except.error "x [remote rejected] y")
        (Except.ok ()) (Except.ok ())
      = ([GitPushAct.push, GitPushAct.pullRebase, GitPushAct.push],
         Except.ok ()) :=
  ((pushGitHubPages_retry_policy (Except.ok ()) (Except.ok ())
      "x [remote rejected] y").1 (by decide)).2 rfl

/-- Generalized-accumulator form of the `findAlerts` loop. -/
theorem findAlerts_aux (tool : ToolType) (pb : List BenchmarkResult) (t : Rat)
    (l : List BenchmarkResult) (acc : List Alert) :
    l.foldl
      (fun alerts current =>
        match pb.find? (fun b => b.name == current.name) with
        | none => alerts
        | some prev =>
          let rq := if biggerIsBetter tool then prev.value / current.value
            else current.value / prev.value
          if rq > t then alerts ++ [⟨current, prev, rq⟩] else alerts)
      acc
    = acc ++ l.filterMap
        (fun current =>
          match pb.find? (fun b => b.name == current.name) with
          | none => none
          | some prev =>
            let rq := if biggerIsBetter tool then prev.value / current.value
              else current.value / prev.value
            if rq > t then some ⟨current, prev, rq⟩ else none) := by
  induction l generalizing acc with
  | nil => simp
  | cons x xs ih =>
    rw [List.foldl_cons, List.filterMap_cons]
    cases hf : pb.find? (fun b => b.name == x.name) with
    | none =>
      simp only [hf]
      exact ih acc
    | some prev =>
      simp only [hf]
      by_cases hr :
          (if biggerIsBetter tool then prev.value / x.value
            else x.value / prev.value) > t
      · rw [if_pos hr, if_pos hr, ih, List.append_assoc, List.singleton_append]
      · rw [if_neg hr, if_neg hr, ih]

/-- C2: `findAlerts` agrees with the spec detector: in `curEntry.benches`
order, each current measurement whose first same-named previous
measurement exists and whose polarity-directed ratio exceeds the threshold
yields exactly one alert; a measurement without a same-named previous one
is skipped without error. -/
theorem findAlerts_matches_detect (cur prev : Benchmark) (t : Rat) :
    findAlerts cur prev t = detectSpec cur prev t := by
  unfold findAlerts detectSpec
  rw [findAlerts_aux cur.tool prev.benches t cur.benches []]
  rfl

/-- Every alert found at threshold 0 has a positive ratio. -/
theorem findAlerts_zero_ratio_pos (cur prev : Benchmark) (a : Alert)
    (h : a ∈ findAlerts cur prev 0) : 0 < a.ratioQ := by
  unfold findAlerts at h
  rw [findAlerts_aux cur.tool prev.benches 0 cur.benches []] at h
  rw [List.nil_append, List.mem_filterMap] at h
  obtain ⟨x, _, hx⟩ := h
  rcases hfind : prev.benches.find? (fun b => b.name == x.name) with _ | p
  · rw [hfind] at hx
    cases hx
  · rw [hfind] at hx
    by_cases hr :
        (if biggerIsBetter cur.tool then p.value / x.value
          else x.value / p.value) > 0
    · simp only [if_pos hr] at hx
      cases hx
      exact hr
    · simp only [if_neg hr] at hx
      cases hx

/-- If `find?` returns an element, the list splits at its first hit, with
every earlier element failing the predicate. -/
theorem find?_some_split {α : Type} (p : α → Bool) (l : List α) :
    ∀ a, l.find? p = some a →
      p a = true ∧ ∃ l₁ l₂, l = l₁ ++ a :: l₂ ∧ ∀ x ∈ l₁, p x = false := by
  induction l with
  | nil =>
    intro a h
    simp at h
  | cons x xs ih =>
    intro a h
    cases hx : p x with
    | true =>
      rw [List.find?_cons_of_pos _ hx] at h
      cases h
      exact ⟨hx, [], xs, rfl, by simp⟩
    | false =>
      rw [List.find?_cons_of_neg _ (by simp [hx])] at h
      obtain ⟨hpa, l₁, l₂, heq, hall⟩ := ih a h
      subst heq
      refine ⟨hpa, x :: l₁, l₂, rfl, ?_⟩
      intro y hy
      cases hy with
      | head => exact hx
      | tail _ hy2 => exact hall y hy2

/-- Scanning the reversed entry list for the first differing commit id:
it finds nothing iff every entry carries the new id, and a hit is the
closest entry (by reverse insertion order) with a differing id — every
entry after it in the original list carries the new id. -/
theorem reverse_find_baseline (l : List Benchmark) (c : String) :
    (l.reverse.find? (fun e => e.commit.id != c) = none ↔
      ∀ e ∈ l, e.commit.id = c)
    ∧ ∀ e, l.reverse.find? (fun e => e.commit.id != c) = some e →
        e.commit.id ≠ c ∧
        ∃ l₁ l₂, l = l₁ ++ e :: l₂ ∧ ∀ x ∈ l₂, x.commit.id = c := by
  constructor
  · rw [List.find?_eq_none]
    constructor
    · intro h e he
      have := h e (List.mem_reverse.mpr he)
      simpa using this
    · intro h e he
      have := h e (List.mem_reverse.mp he)
      simp [this]
  · intro e hf
    obtain ⟨hpe, r₁, r₂, heq, hall⟩ := find?_some_split _ l.reverse e hf
    refine ⟨by simpa using hpe, r₂.reverse, r₁.reverse, ?_, ?_⟩
    · have h2 : l = (r₁ ++ e :: r₂).reverse := by
        rw [← heq, List.reverse_reverse]
      rw [h2]
      simp
    · intro x hx
      have := hall x (List.mem_reverse.mp hx)
      simpa using this

/-- C1: publishing a new entry into a suite returns as baseline the
closest entry, scanning the existing sequence backwards, whose commit id
differs from the new entry's id: no baseline exists iff every prior entry
(or none at all) carries the new commit id, and a returned baseline has a
differing id with only same-id entries after it; when no baseline exists
the alert phase is skipped. -/
theorem baseline_selection (data : DataJson) (nm : String) (bench : Benchmark)
    (now : Nat) (url : String) (env : Env) (cfg : Config) (t : List Act) :
    ((mergeBenchmark data nm bench now url).snd = none ↔
      ∀ e ∈ (lookupEntries data.entries nm).getD [],
        e.commit.id = bench.commit.id)
    ∧ (∀ e, (mergeBenchmark data nm bench now url).snd = some e →
        e.commit.id ≠ bench.commit.id ∧
        ∃ l₁ l₂, (lookupEntries data.entries nm).getD [] = l₁ ++ e :: l₂ ∧
          ∀ x ∈ l₂, x.commit.id = bench.commit.id)
    ∧ ((mergeBenchmark data nm bench now url).snd = none →
        alertStep env cfg bench (mergeBenchmark data nm bench now url).snd t
          = ⟨t, none, Except.ok ()⟩) := by
  cases hl : lookupEntries data.entries nm with
  | none =>
    refine ⟨by simp [mergeBenchmark, hl], ?_, ?_⟩
    · intro e he
      simp [mergeBenchmark, hl] at he
    · intro hn
      rw [hn]
      rfl
  | some es =>
    have hsnd : (mergeBenchmark data nm bench now url).snd
        = es.reverse.find? (fun e => e.commit.id != bench.commit.id) := by
      simp [mergeBenchmark, hl]
    have hchar := reverse_find_baseline es bench.commit.id
    refine ⟨?_, ?_, ?_⟩
    · rw [hsnd]
      simp only [Option.getD_some]
      exact hchar.1
    · intro e he
      rw [hsnd] at he
      have := hchar.2 e he
      simpa using this
    · intro hn
      rw [hn]
      rfl

/-- Witness for C1 at prior commit ids [A, A, B, C] and new commit C: the
baseline is the entry with id B (not A). -/
theorem baseline_selection_witness :
    (mergeBenchmark dataABC "s" (benchOf "C") 1 "u").snd = some (benchOf "B")
    ∧ ∀ e, (mergeBenchmark dataABC "s" (benchOf "C") 1 "u").snd = some e →
        e.commit.id ≠ (benchOf "C").commit.id ∧
        ∃ l₁ l₂, (lookupEntries dataABC.entries "s").getD [] = l₁ ++ e :: l₂ ∧
          ∀ x ∈ l₂, x.commit.id = (benchOf "C").commit.id :=
  ⟨by decide,
   (baseline_selection dataABC "s" (benchOf "C") 1 "u" envOk cfgC10 []).2.1⟩

/-- Setting a key finds exactly the written value at that key. -/
theorem lookup_setEntries_self (es : List (String × List Benchmark))
    (nm : String) (v : List Benchmark) :
    lookupEntries (setEntries es nm v) nm = some v := by
  induction es with
  | nil => simp [setEntries, lookupEntries]
  | cons p rest ih =>
    by_cases hp : p.fst = nm
    · simp [setEntries, hp, lookupEntries]
    · simp only [setEntries, beq_iff_eq, if_neg hp]
      simp only [lookupEntries] at ih ⊢
      rw [List.find?_cons_of_neg _ (by simp [hp])]
      exact ih

/-- Setting a key leaves every other key's lookup unchanged. -/
theorem lookup_setEntries_other (es : List (String × List Benchmark))
    (nm m : String) (v : List Benchmark) (h : m ≠ nm) :
    lookupEntries (setEntries es nm v) m = lookupEntries es m := by
  induction es with
  | nil =>
    simp only [setEntries, lookupEntries]
    rw [List.find?_cons_of_neg _ (by simp [Ne.symm h])]
  | cons p rest ih =>
    by_cases hp : p.fst = nm
    · simp only [setEntries, beq_iff_eq, if_pos hp, lookupEntries]
      rw [List.find?_cons_of_neg _ (by simp [Ne.symm h]),
        List.find?_cons_of_neg _ (by simp [hp, Ne.symm h])]
    · simp only [setEntries, beq_iff_eq, if_neg hp]
      simp only [lookupEntries] at ih ⊢
      by_cases hm : p.fst = m
      · rw [List.find?_cons_of_pos _ (by simp [hm]),
          List.find?_cons_of_pos _ (by simp [hm])]
      · rw [List.find?_cons_of_neg _ (by simp [hm]),
          List.find?_cons_of_neg _ (by simp [hm])]
        exact ih

/-- One merge appends exactly the new entry to the named suite. -/
theorem mergeBenchmark_lookup_self (data : DataJson) (nm : String)
    (b : Benchmark) (now : Nat) (url : String) :
    lookupEntries (mergeBenchmark data nm b now url).fst.entries nm
      = some ((lookupEntries data.entries nm).getD [] ++ [b]) := by
  cases hl : lookupEntries data.entries nm with
  | none => simp [mergeBenchmark, hl, lookup_setEntries_self]
  | some es => simp [mergeBenchmark, hl, lookup_setEntries_self]

/-- One merge leaves every other suite untouched. -/
theorem mergeBenchmark_lookup_other (data : DataJson) (nm m : String)
    (b : Benchmark) (now : Nat) (url : String) (h : m ≠ nm) :
    lookupEntries (mergeBenchmark data nm b now url).fst.entries m
      = lookupEntries data.entries m := by
  cases hl : lookupEntries data.entries nm with
  | none => simp [mergeBenchmark, hl, lookup_setEntries_other _ _ _ _ h]
  | some es => simp [mergeBenchmark, hl, lookup_setEntries_other _ _ _ _ h]

/-- C6: each merge appends exactly one entry to the target suite and
leaves every other suite unchanged; merging N entries one at a time leaves
the suite holding the prior entries followed by the N new entries in
arrival order (length N from an empty start), never mutating or removing a
previously stored entry. -/
theorem merge_append_only (data : DataJson) (nm : String) (bs : List Benchmark)
    (now : Nat) (url : String) :
    (∀ b : Benchmark,
      lookupEntries (mergeBenchmark data nm b now url).fst.entries nm
        = some ((lookupEntries data.entries nm).getD [] ++ [b])
      ∧ ∀ m, m ≠ nm →
          lookupEntries (mergeBenchmark data nm b now url).fst.entries m
            = lookupEntries data.entries m)
    ∧ (lookupEntries (mergeMany data nm bs now url).entries nm).getD []
        = (lookupEntries data.entries nm).getD [] ++ bs
    ∧ ∀ m, m ≠ nm →
        lookupEntries (mergeMany data nm bs now url).entries m
          = lookupEntries data.entries m := by
  refine ⟨fun b => ⟨mergeBenchmark_lookup_self data nm b now url,
    fun m hm => mergeBenchmark_lookup_other data nm m b now url hm⟩, ?_, ?_⟩
  · induction bs generalizing data with
    | nil => simp [mergeMany]
    | cons b rest ih =>
      have hstep : mergeMany data nm (b :: rest) now url
          = mergeMany (mergeBenchmark data nm b now url).fst nm rest now url := rfl
      rw [hstep, ih, mergeBenchmark_lookup_self]
      simp
  · induction bs generalizing data with
    | nil =>
      intro m hm
      rfl
    | cons b rest ih =>
      intro m hm
      have hstep : mergeMany data nm (b :: rest) now url
          = mergeMany (mergeBenchmark data nm b now url).fst nm rest now url := rfl
      rw [hstep, ih _ m hm, mergeBenchmark_lookup_other data nm m b now url hm]

/-- Witness for C6: two further entries merged into the [A,A,B,C] suite
arrive in order, and an unrelated suite stays untouched. -/
theorem merge_append_only_witness :
    (lookupEntries
        (mergeMany dataABC "s" [benchOf "D", benchOf "E"] 1 "u").entries
        "s").getD []
      = (lookupEntries dataABC.entries "s").getD []
          ++ [benchOf "D", benchOf "E"]
    ∧ ∀ m, m ≠ "s" →
        lookupEntries
            (mergeMany dataABC "s" [benchOf "D", benchOf "E"] 1 "u").entries m
          = lookupEntries dataABC.entries m :=
  ⟨(merge_append_only dataABC "s" [benchOf "D", benchOf "E"] 1 "u").2.1,
   (merge_append_only dataABC "s" [benchOf "D", benchOf "E"] 1 "u").2.2⟩

/-- C7 counterexample: a run configured with threshold 0 but with
fail-on-alert enabled does fail: with equal current and previous values
the ratio is 1, which exceeds the threshold 0, and the alert phase throws.
This refutes the claim that every threshold-zero run avoids failure. -/
theorem threshold_zero_can_fail :
    isErrES (runAlert "Benchmark" curC7 prevC7 0 none false true []
        (some repoX) "w" (Except.ok ()) "cu").snd = true := by
  have halerts : findAlerts curC7 prevC7 0 = [⟨mOne, mOne, 1⟩] := by
    simp [findAlerts, curC7, prevC7, mOne, biggerIsBetter]
  simp [runAlert, halerts, isErrES]

/-- C7 (amended): a run with threshold 0, comment-on-alert enabled with a
token and repository context available, fail-on-alert disabled, and a
succeeding comment API posts, whenever at least one compared metric has a
positive ratio, a report built from exactly the positive-ratio compared
metrics, and does not fail; every reported ratio is positive. -/
theorem threshold_zero_reports_without_failing (benchName : String)
    (cur prev : Benchmark) (tok : String) (ccUsers : List String)
    (r : RepoInfo) (wf cu : String)
    (h : findAlerts cur prev 0 ≠ []) :
    runAlert benchName cur prev 0 (some tok) true false ccUsers
        (some r) wf (Except.ok ()) cu
      = (some (buildAlertComment (findAlerts cur prev 0) benchName cur prev 0
          ccUsers r wf), Except.ok ())
    ∧ ∀ a ∈ findAlerts cur prev 0, 0 < a.ratioQ := by
  constructor
  · cases hA : findAlerts cur prev 0 with
    | nil => exact absurd hA h
    | cons a as => simp [runAlert, hA]
  · exact fun a ha => findAlerts_zero_ratio_pos cur prev a ha

/-- Witness for the amended C7 at a concrete ratio-1 metric. -/
theorem threshold_zero_reports_witness :
    runAlert "B" curC7 prevC7 0 (some "tk") true false [] (some repoX) "w"
        (Except.ok ()) "cu"
      = (some (buildAlertComment (findAlerts curC7 prevC7 0) "B" curC7 prevC7 0
          [] repoX "w"), Except.ok ())
    ∧ ∀ a ∈ findAlerts curC7 prevC7 0, 0 < a.ratioQ :=
  threshold_zero_reports_without_failing "B" curC7 prevC7 "tk" [] repoX "w" "cu"
    (by
      have halerts : findAlerts curC7 prevC7 0 = [⟨mOne, mOne, 1⟩] := by
        simp [findAlerts, curC7, prevC7, mOne, biggerIsBetter]
      simp [halerts])

/-- C8: whenever the initial branch switch succeeds, the cleanup checkout
of the pre-publish ref is the final action of every run, whatever the
outcome (success or failure) of the pull, mkdir, load, store, stage,
index-page, commit, push and alert steps, including every fatal path. -/
theorem cleanup_always_runs (env : Env) (cfg : Config) (bench : Benchmark)
    (h : env.switchRes = Except.ok ()) :
    (writeBenchmark env cfg bench).trace.getLast? = some Act.checkoutBack := by
  unfold writeBenchmark
  rw [h]
  exact List.getLast?_concat _

/-- Witness for C8 on the all-success environment. -/
theorem cleanup_always_runs_witness :
    (writeBenchmark envOk cfgC10 benchNewB).trace.getLast?
      = some Act.checkoutBack :=
  cleanup_always_runs envOk cfgC10 benchNewB rfl

/-- C10: with comment-on-alert configured but no token, under otherwise
successful external calls and available repository context, the
missing-token error surfaces only when a baseline exists and at least one
alert fires; it arises in the alert phase, after the commit is already in
the trace, and no push is attempted (auto-push needs a token); with no
baseline, or with zero alerts, the publish completes without error and no
comment is posted. -/
theorem comment_without_token_late_failure (env : Env) (cfg : Config)
    (bench : Benchmark) (r : RepoInfo)
    (hc : cfg.commentOnAlert = true) (ht : cfg.githubToken = none)
    (hr : env.repo = some r) (he : Env.allOk env) :
    (∀ p, (mergeBenchmark (loadDataJson env.parse env.fileContent) cfg.name
          bench env.now env.htmlUrl).snd = some p →
      findAlerts bench p cfg.alertThreshold ≠ [] →
      ((writeBenchmark env cfg bench).result = Except.error tokenMissingMsg
        ∧ Act.gitCommit ∈ (writeBenchmark env cfg bench).trace
        ∧ Act.gitPush ∉ (writeBenchmark env cfg bench).trace
        ∧ (writeBenchmark env cfg bench).commented = none))
    ∧ (∀ p, (mergeBenchmark (loadDataJson env.parse env.fileContent) cfg.name
          bench env.now env.htmlUrl).snd = some p →
      findAlerts bench p cfg.alertThreshold = [] →
      ((writeBenchmark env cfg bench).result = Except.ok ()
        ∧ (writeBenchmark env cfg bench).commented = none))
    ∧ ((mergeBenchmark (loadDataJson env.parse env.fileContent) cfg.name
          bench env.now env.htmlUrl).snd = none →
      ((writeBenchmark env cfg bench).result = Except.ok ()
        ∧ (writeBenchmark env cfg bench).commented = none)) := by
  obtain ⟨h1, h2, h3, h4, h5, h6, h7, h8, h9, h10⟩ := he
  refine ⟨?_, ?_, ?_⟩
  · intro p hp hal
    cases hA : findAlerts bench p cfg.alertThreshold with
    | nil => exact absurd hA hal
    | cons a as =>
      cases hpc : pullCondition cfg env.isPrivateRepo <;>
        cases hidx : env.indexHtmlExists <;>
          simp [writeBenchmark, writeBody, step, indexStep, pushStep,
            alertStep, runAlert, hpc, hidx, h1, h2, h3, h4, h5, h6, h7, h8,
            h9, h10, hc, ht, hr, hp, hA]
  · intro p hp hal
    cases hpc : pullCondition cfg env.isPrivateRepo <;>
      cases hidx : env.indexHtmlExists <;>
        simp [writeBenchmark, writeBody, step, indexStep, pushStep,
          alertStep, runAlert, hpc, hidx, h1, h2, h3, h4, h5, h6, h7, h8,
          h9, h10, hc, ht, hr, hp, hal]
  · intro hp
    cases hpc : pullCondition cfg env.isPrivateRepo <;>
      cases hidx : env.indexHtmlExists <;>
        simp [writeBenchmark, writeBody, step, indexStep, pushStep,
          alertStep, hpc, hidx, h1, h2, h3, h4, h5, h6, h7, h8, h9, h10,
          ht, hp]

/-- Witness for C10: the all-success, token-less, comment-on-alert run on
a regressed metric fails with the missing-token error only after the
commit, with no push and no comment. -/
theorem comment_without_token_witness :
    (writeBenchmark envOk cfgC10 benchNewB).result
      = Except.error tokenMissingMsg
    ∧ Act.gitCommit ∈ (writeBenchmark envOk cfgC10 benchNewB).trace
    ∧ Act.gitPush ∉ (writeBenchmark envOk cfgC10 benchNewB).trace
    ∧ (writeBenchmark envOk cfgC10 benchNewB).commented = none :=
  (comment_without_token_late_failure envOk cfgC10 benchNewB repoX rfl rfl rfl
      ⟨rfl, rfl, rfl, rfl, rfl, rfl, rfl, rfl, rfl, rfl⟩).1 benchPrevA
    (by decide)
    (by
      have : findAlerts benchNewB benchPrevA cfgC10.alertThreshold
          = [⟨mThree, mOne, 3⟩] := by
        simp [findAlerts, benchNewB, benchPrevA, mThree, mOne,
          biggerIsBetter, cfgC10]
      simp [this])
